import Mathlib

/-!
Verification development for the Orion rendezvous server.

The definitions below are a shallow embedding of the server's core:
the lobby aggregate (`Lobby`), the lobby registry (`LobbyRegistry`),
the peer-to-peer mediator state machine (`PtpMediator`), and the
frame codec (`encodeWsMessage` / `decodeWsMessage`).  JavaScript
strings are embedded as `List Char` (abbreviated `Str`), JavaScript
objects used as maps are embedded as association lists with
first-match lookup, and the JavaScript timer API (`setInterval`,
`setTimeout`, `clearInterval`, `clearTimeout`) is embedded as a
`TimerWorld` that hands out numeric timer ids from a counter and
keeps the set of live timers, mirroring the platform's behaviour of
clearing by numeric id.  Frames that the server writes to sockets are
collected in emitted-packet lists instead of performing I/O.
-/

namespace Orion

/-- JavaScript strings are embedded as lists of characters. -/
abbrev Str := List Char

/-- A client's session on the reliable stream: its secret token and its
socket (embedded as a numeric socket identity, standing for the
distinct `WebSocket` object of the session). -/
structure NetworkClient where
  token : Str
  socket : Nat
deriving DecidableEq

/-- A session joined to a lobby under a display name. -/
structure LobbyClient where
  name : Str
  networkClient : NetworkClient
deriving DecidableEq

/-- The observed UDP source address of a member, captured from its
`ptpMediation_connect` datagram. -/
structure PtpDetails where
  ip : Str
  port : Nat
deriving DecidableEq

/-- The lobby aggregate.  `name`, `host`, `maxMembers`, `isPublic` and the
member list come from `src/lobby/Lobby.ts`; the `locked` flag is
Modelled from the spec: the source variant of `Lobby` carrying the
locked flag (set while mediation is active, with `lock`/`unlock`
mutators invoked by the lobby registry) is absent from `src/`, though
`LobbyRegistry.ts` calls `lobby.lock()` and `lobby.unlock()`. -/
structure Lobby where
  name : Str
  host : LobbyClient
  maxMembers : Nat
  isPublic : Bool
  members : List LobbyClient
  locked : Bool
deriving DecidableEq

/-- `#doLobbyClientsMatch`: two lobby clients match when their network
clients carry the same token. -/
def doLobbyClientsMatch (a b : LobbyClient) : Bool :=
  a.networkClient.token == b.networkClient.token

/-- `get numMembers()`. -/
def Lobby.numMembers (l : Lobby) : Nat :=
  l.members.length

/-- `get isFull()`. -/
def Lobby.isFull (l : Lobby) : Bool :=
  decide (l.numMembers ≥ l.maxMembers)

/-- `otherMembers`: all members of the lobby whose token differs from the
excluded member's token. -/
def Lobby.otherMembers (l : Lobby) (memberToExclude : LobbyClient) : List LobbyClient :=
  l.members.filter (fun member => !(member.networkClient.token == memberToExclude.networkClient.token))

/-- `isMember`. -/
def Lobby.isMember (l : Lobby) (member : LobbyClient) : Bool :=
  l.members.any (fun existingMember => doLobbyClientsMatch existingMember member)

/-- `addMember`: appends the member and reports success unless the lobby
is full or the member is already present.  On the evented `Lobby` the
successful push also triggers the `onMemberAdded` observation; this
function is the member-list part, and the delivery of the observation
to the subscribed mediator handler is `fireMemberChange`, composed in
`addMemberToLobbyWithObservers`. -/
def Lobby.addMember (l : Lobby) (member : LobbyClient) : Lobby × Bool :=
  if !(l.isMember member) && !(l.isFull) then
    ({ l with members := l.members ++ [member] }, true)
  else
    (l, false)

/-- `removeMember`: keeps every member that does not match the removed
client.  On the evented `Lobby` the call also triggers the
`onMemberRemoved` observation; this function is the member-list part,
and the delivery of the observation to the subscribed mediator handler
is `fireMemberChange`, composed in
`removeMemberFromLobbyWithObservers`. -/
def Lobby.removeMember (l : Lobby) (member : LobbyClient) : Lobby :=
  { l with members := l.members.filter (fun existingMember => !(doLobbyClientsMatch existingMember member)) }

/-- `isHost`: the member found by token equality is the host object. -/
def Lobby.isHost (l : Lobby) (member : LobbyClient) : Bool :=
  decide (l.members.find? (fun existingMember => doLobbyClientsMatch existingMember member) = some l.host)

/-- `lock()`.  Modelled from the spec: set the locked flag while
mediation is active. -/
def Lobby.lock (l : Lobby) : Lobby :=
  { l with locked := true }

/-- `unlock()`.  Modelled from the spec: clear the locked flag when the
mediator is cleaned up. -/
def Lobby.unlock (l : Lobby) : Lobby :=
  { l with locked := false }

/-! ### JavaScript objects used as string-keyed maps -/

/-- Lookup in a JavaScript object embedded as an association list:
the first binding of the key wins. -/
def objGet {α : Type} : List (Str × α) → Str → Option α
  | [], _ => none
  | p :: rest, k => if p.1 = k then some p.2 else objGet rest k

/-- Truthiness of `obj[k]` for object-valued entries: the key is bound. -/
def objHas {α : Type} (m : List (Str × α)) (k : Str) : Bool :=
  (objGet m k).isSome

/-- `obj[k] = v`: overwrite the binding in place, or append a fresh one. -/
def objSet {α : Type} : List (Str × α) → Str → α → List (Str × α)
  | [], k, v => [(k, v)]
  | p :: rest, k, v => if p.1 = k then (k, v) :: rest else p :: objSet rest k v

/-- `delete obj[k]`. -/
def objDelete {α : Type} : List (Str × α) → Str → List (Str × α)
  | [], _ => []
  | p :: rest, k => if p.1 = k then objDelete rest k else p :: objDelete rest k

/-- `Object.keys(obj)`. -/
def objKeys {α : Type} (m : List (Str × α)) : List Str :=
  m.map (·.1)

/-! ### Server-originated frames

`sendToSockets(encodeWsPacket(method, payload), ...sockets)` calls are
embedded as emitted `Packet` values carrying the structured payload and
the recipient sockets. -/

/-- The server-originated frame methods the embedded operations emit. -/
inductive WsMethod where
  | peerConnected
  | peerDisconnected
  | lobbyClosed
  | sendPtpPacket
  | startPeerConnection
  | ptpMediationAborted
  | ptpMediationSuccessful
deriving DecidableEq

/-- Structured frame payloads. -/
inductive WsPayload where
  /-- `{ peerName, lobbyId }` of `lobby_peerConnect` / `lobby_peerDisconnect`. -/
  | peerInfo (peerName : Str) (lobbyId : Str)
  /-- `{ lobbyName, lobbyId }` of `lobby_closed`. -/
  | lobbyClosedInfo (lobbyName : Str) (lobbyId : Str)
  /-- `{ port }` of `ptpMediation_send`. -/
  | portInfo (port : Nat)
  /-- `{ peers }` of `ptpMediation_peersConnection_start`; an entry is
  `none` where the source reads a detail that was never captured. -/
  | peersInfo (peers : List (Option PtpDetails))
  /-- `{ abortReason }` of `ptpMediation_aborted`. -/
  | abortInfo (abortReason : Str)
  /-- `{}` of `ptpMediation_success`. -/
  | emptyInfo
deriving DecidableEq

/-- One `sendToSockets` call: a method, its payload, and the sockets the
encoded frame is written to. -/
structure Packet where
  method : WsMethod
  payload : WsPayload
  recipients : List Nat
deriving DecidableEq

/-! ### Timers -/

/-- The JavaScript timer table: a counter handing out numeric timer ids
and the set of ids whose timer is still armed. -/
structure TimerWorld where
  nextId : Nat
  active : List Nat
deriving DecidableEq

/-- `setInterval` / `setTimeout`: arm a fresh timer and return its id. -/
def setTimer (w : TimerWorld) : Nat × TimerWorld :=
  (w.nextId, ⟨w.nextId + 1, w.active ++ [w.nextId]⟩)

/-- `clearInterval(n)` / `clearTimeout(n)`: disarm the timer whose id is
the given number; a number that is no live timer id clears nothing. -/
def clearTimer (n : Nat) (w : TimerWorld) : TimerWorld :=
  ⟨w.nextId, w.active.filter (fun i => !(i == n))⟩

/-- `clearInterval(handle)` on a possibly-unset handle field:
`clearInterval(undefined)` is a no-op. -/
def clearTimerOpt (o : Option Nat) (w : TimerWorld) : TimerWorld :=
  match o with
  | some n => clearTimer n w
  | none => w

/-! ### The peer-to-peer mediator (`PtpMediator.ts`) -/

/-- The per-lobby mediator state.  The source object also holds the lobby
reference; the embedding passes the lobby explicitly to each operation. -/
structure PtpMediator where
  udpPort : Nat
  /-- `#networkClientToPtpDetails`: member token → observed details. -/
  networkClientToPtpDetails : List (Str × PtpDetails)
  /-- `#networkClientsWithSuccessfulConnectionToPeers`. -/
  networkClientsWithSuccessfulConnectionToPeers : List Str
  /-- `#connectPacketInterval`: the reminder interval's timer handle. -/
  connectPacketInterval : Option Nat
  /-- `#connectTimeout`: the capture deadline's timer handle. -/
  connectTimeout : Option Nat
  /-- `#ptpConnectTimeout`: the peer-connect deadline's timer handle. -/
  ptpConnectTimeout : Option Nat
  connectTimeoutMs : Nat
  connectRequestIntervalMs : Nat
  ptpConnectTimeoutMs : Nat
deriving DecidableEq

/-- Observable effects of a mediator operation: frames written to
sockets, the `onAbort` / `onCleanup` / `onStartingConnection` /
`onSuccess` event triggers the lobby registry subscribes to, and the
registration of the mediator's `handleLobbyMemberChange` handler on the
lobby's `onMemberRemoved` / `onMemberAdded` events performed by
`start()`. -/
inductive MedEff where
  | send (p : Packet)
  | startingConnection
  | aborted (reason : Str)
  | cleanedUp
  | succeeded
  /-- `start()` subscribed `handleLobbyMemberChange` to the lobby's
  membership events; the caller records the started mediator as the
  lobby's member-change subscriber (see `fireMemberChange`).  No
  operation — `cleanup()` included — ever unsubscribes it. -/
  | subscribedMemberChange
deriving DecidableEq

/-- `get #uncapturedClients()`: the network clients of members whose
token is not yet a key of the captured-details map. -/
def PtpMediator.uncapturedClients (lobby : Lobby) (m : PtpMediator) : List NetworkClient :=
  (lobby.members.map (·.networkClient)).filter
    (fun networkClient => !((objKeys m.networkClientToPtpDetails).contains networkClient.token))

/-- `#requestConnectPacket`: the `ptpMediation_send` frame carrying the
server's UDP port, written to the one client's socket. -/
def requestConnectPacket (udpPort : Nat) (networkClient : NetworkClient) : Packet :=
  ⟨.sendPtpPacket, .portInfo udpPort, [networkClient.socket]⟩

/-- The body of the reminder interval callback in `start()`: resend the
connect request to every uncaptured client. -/
def PtpMediator.reminderTick (lobby : Lobby) (m : PtpMediator) : List Packet :=
  (PtpMediator.uncapturedClients lobby m).map (requestConnectPacket m.udpPort)

/-- `#haveAllPeersSharedConnectionDetailsWithServer()`. -/
def PtpMediator.haveAllPeersSharedConnectionDetailsWithServer (lobby : Lobby) (m : PtpMediator) : Bool :=
  lobby.members.all
    (fun member => (objKeys m.networkClientToPtpDetails).contains member.networkClient.token)

/-- `#haveAllPeersConnectedToOneAnother()`. -/
def PtpMediator.haveAllPeersConnectedToOneAnother (lobby : Lobby) (m : PtpMediator) : Bool :=
  lobby.members.all
    (fun member => m.networkClientsWithSuccessfulConnectionToPeers.contains member.networkClient.token)

/-- `#requestStartPeerConnection()`: the all-captured transition.  The
source's first line is `clearInterval(this.#connectRequestIntervalMs)`,
which passes the reminder interval's millisecond value where the timer
handle `this.#connectPacketInterval` belongs; the embedding reproduces
that call faithfully (it clears whatever timer happens to carry that
numeric id).  It then cancels the capture deadline, dispatches the
connect list (the host receives every non-host member's captured
details, each non-host receives only the host's), arms the peer-connect
deadline and triggers `onStartingConnection`. -/
def PtpMediator.requestStartPeerConnection (lobby : Lobby) (m : PtpMediator) (w : TimerWorld) :
    PtpMediator × TimerWorld × List MedEff :=
  let w1 := clearTimer m.connectRequestIntervalMs w
  let w2 := clearTimerOpt m.connectTimeout w1
  let hostPacket : Packet :=
    ⟨.startPeerConnection,
      .peersInfo ((lobby.otherMembers lobby.host).map
        (fun nonHostMember => objGet m.networkClientToPtpDetails nonHostMember.networkClient.token)),
      [lobby.host.networkClient.socket]⟩
  let othersPacket : Packet :=
    ⟨.startPeerConnection,
      .peersInfo [objGet m.networkClientToPtpDetails lobby.host.networkClient.token],
      (lobby.otherMembers lobby.host).map (·.networkClient.socket)⟩
  let armed := setTimer w2
  ({ m with ptpConnectTimeout := some armed.1 }, armed.2,
    [.send hostPacket, .send othersPacket, .startingConnection])

/-- `addDetailsForNetworkClient`: record (overwriting) the observed
details for the client's token, then run the all-captured transition
when every member's token is captured. -/
def PtpMediator.addDetailsForNetworkClient (lobby : Lobby) (m : PtpMediator) (w : TimerWorld)
    (networkClient : NetworkClient) (details : PtpDetails) :
    PtpMediator × TimerWorld × List MedEff :=
  let m1 := { m with networkClientToPtpDetails := objSet m.networkClientToPtpDetails networkClient.token details }
  if PtpMediator.haveAllPeersSharedConnectionDetailsWithServer lobby m1 then
    PtpMediator.requestStartPeerConnection lobby m1 w
  else
    (m1, w, [])

/-- `cleanup()`: disarm all three timers, drop the per-mediator maps and
trigger `onCleanup`.  No frame is written and `onAbort` is not
triggered. -/
def PtpMediator.cleanup (m : PtpMediator) (w : TimerWorld) :
    PtpMediator × TimerWorld × List MedEff :=
  let w1 := clearTimerOpt m.connectPacketInterval w
  let w2 := clearTimerOpt m.connectTimeout w1
  let w3 := clearTimerOpt m.ptpConnectTimeout w2
  ({ m with networkClientToPtpDetails := [], networkClientsWithSuccessfulConnectionToPeers := [] },
    w3, [.cleanedUp])

/-- `#abort(reason)`: `cleanup()` then `onAbort.trigger(reason)`. -/
def PtpMediator.abortMediation (m : PtpMediator) (w : TimerWorld) (reason : Str) :
    PtpMediator × TimerWorld × List MedEff :=
  let cleaned := PtpMediator.cleanup m w
  (cleaned.1, cleaned.2.1, cleaned.2.2 ++ [.aborted reason])

/-- `#success()`: `cleanup()` then `onSuccess.trigger()`. -/
def PtpMediator.successMediation (m : PtpMediator) (w : TimerWorld) :
    PtpMediator × TimerWorld × List MedEff :=
  let cleaned := PtpMediator.cleanup m w
  (cleaned.1, cleaned.2.1, cleaned.2.2 ++ [.succeeded])

/-- `indicateSuccessfulPeerConnectionForNetworkClient`. -/
def PtpMediator.indicateSuccessfulPeerConnectionForNetworkClient (lobby : Lobby) (m : PtpMediator)
    (w : TimerWorld) (networkClient : NetworkClient) :
    PtpMediator × TimerWorld × List MedEff :=
  let m1 :=
    if m.networkClientsWithSuccessfulConnectionToPeers.contains networkClient.token then m
    else { m with networkClientsWithSuccessfulConnectionToPeers :=
      m.networkClientsWithSuccessfulConnectionToPeers ++ [networkClient.token] }
  if PtpMediator.haveAllPeersConnectedToOneAnother lobby m1 then
    PtpMediator.successMediation m1 w
  else
    (m1, w, [])

/-- `start()`: request a connect packet from every member, arm the
reminder interval and the capture deadline, then subscribe
`handleLobbyMemberChange` — which runs `#abort('Lobby members
changed.')` — to the lobby's `onMemberRemoved` and `onMemberAdded`
events.  The subscription is emitted as the `subscribedMemberChange`
effect; the delivery of a later membership observation to that handler
is `fireMemberChange`. -/
def PtpMediator.start (lobby : Lobby) (m : PtpMediator) (w : TimerWorld) :
    PtpMediator × TimerWorld × List MedEff :=
  let initialSends : List MedEff :=
    lobby.members.map (fun member => .send (requestConnectPacket m.udpPort member.networkClient))
  let interval := setTimer w
  let timeout := setTimer interval.2
  ({ m with connectPacketInterval := some interval.1, connectTimeout := some timeout.1 },
    timeout.2, initialSends ++ [.subscribedMemberChange])

/-! ### The lobby registry (`LobbyRegistry.ts`)

The registry extends the evented `Registry` base class: `register`
inserts under a fresh id and triggers `onItemRegistered`, `removeById`
deletes the item and triggers `onItemRemoved`, and `LobbyRegistry`
subscribes `#handleItemRegistered` / `#handleItemRemoved` to those
events in its constructor.  The embedding inlines the two subscribed
handlers at the trigger sites. -/

/-- The lobby registry state: the registered lobbies (`items`, lobby id
→ lobby), the token→lobby index (`#networkClientToLobbyMapping`), the
live mediators (`#lobbyIdToPtpMediator`), the server's UDP port, the
mediation options, and the timer table the registry's mediators draw
from. -/
structure LobbyRegistry where
  items : List (Str × Lobby)
  networkClientToLobbyMapping : List (Str × Str)
  lobbyIdToPtpMediator : List (Str × PtpMediator)
  udpPort : Nat
  serverConnectTimeoutMs : Nat
  connectRequestIntervalMs : Nat
  ptpConnectTimeoutMs : Nat
  world : TimerWorld
deriving DecidableEq

/-- The `lobby_closed` frame of `#handleItemRemoved`, written to every
member of the removed lobby. -/
def lobbyClosedPacket (removedLobbyId : Str) (removedLobby : Lobby) : Packet :=
  ⟨.lobbyClosed, .lobbyClosedInfo removedLobby.name removedLobbyId,
    removedLobby.members.map (·.networkClient.socket)⟩

/-- The registry's reactions, subscribed in `startPtpMediationForLobby`,
to a mediator's event triggers: `onAbort` fans the
`ptpMediation_aborted` frame out to the lobby's members and `onSuccess`
fans out `ptpMediation_success`; `onCleanup` and `onStartingConnection`
write no frame.  (The state updates of `onCleanup` and the lobby close
of `onSuccess` are inlined where the triggering operations are
embedded.) -/
def interpretMedEffs (lobby : Lobby) (effs : List MedEff) : List Packet :=
  effs.flatMap (fun e =>
    match e with
    | .send p => [p]
    | .aborted reason =>
        [⟨.ptpMediationAborted, .abortInfo reason, lobby.members.map (·.networkClient.socket)⟩]
    | .succeeded =>
        [⟨.ptpMediationSuccessful, .emptyInfo, lobby.members.map (·.networkClient.socket)⟩]
    | .startingConnection => []
    | .cleanedUp => []
    | .subscribedMemberChange => [])

/-- `#handleItemRemoved`: drop every token→lobby entry pointing at the
removed lobby; if the lobby has a live mediator, `cleanup()` it (whose
`onCleanup` trigger deletes the mediator entry and unlocks the
now-deregistered lobby object) and delete its entry; then write the
`lobby_closed` frame to every member of the removed lobby. -/
def handleItemRemoved (st : LobbyRegistry) (removedLobbyId : Str) (removedLobby : Lobby) :
    LobbyRegistry × List Packet :=
  let mapping1 := st.networkClientToLobbyMapping.filter (fun p => !(p.2 == removedLobbyId))
  let st1 := { st with networkClientToLobbyMapping := mapping1 }
  match objGet st1.lobbyIdToPtpMediator removedLobbyId with
  | some m =>
      let cleaned := PtpMediator.cleanup m st1.world
      let mediators2 := objDelete st1.lobbyIdToPtpMediator removedLobbyId
      let st2 := { st1 with world := cleaned.2.1, lobbyIdToPtpMediator := mediators2 }
      (st2, interpretMedEffs removedLobby cleaned.2.2 ++ [lobbyClosedPacket removedLobbyId removedLobby])
  | none =>
      (st1, [lobbyClosedPacket removedLobbyId removedLobby])

/-- `removeById` of the registry base class: delete the registered item
and trigger `onItemRemoved`, which the lobby registry serves with
`#handleItemRemoved`. -/
def removeById (st : LobbyRegistry) (id : Str) : LobbyRegistry × List Packet :=
  match objGet st.items id with
  | some lobby => handleItemRemoved { st with items := objDelete st.items id } id lobby
  | none => (st, [])

/-- `register` of the registry base class specialised to the lobby
registry, followed by the subscribed `#handleItemRegistered` (which
records the token→lobby entry for the lobby's host).  Modelled from the
spec: the evented `Registry` base class is absent from `src/`, and per
the spec the 5-char id generated by `getNextId` is retried while it
collides with an already-registered lobby; the candidate ids are drawn
from `genId` and at most `fuel` retries are attempted. -/
def registerLobby (st : LobbyRegistry) (genId : Nat → Str) (fuel : Nat) (lobby : Lobby) :
    Option (LobbyRegistry × Str) :=
  match (List.range fuel).find? (fun n => !(objHas st.items (genId n))) with
  | some n =>
      let id := genId n
      let st1 := { st with items := objSet st.items id lobby }
      let mapping2 := objSet st1.networkClientToLobbyMapping lobby.host.networkClient.token id
      let st2 := { st1 with networkClientToLobbyMapping := mapping2 }
      some (st2, id)
  | none => none

/-- `addMemberToLobby`: when the lobby exists, the client is no member
yet and the member count is below capacity, append the member, record
the token→lobby entry, and write the `lobby_peerConnect` frame to the
other members of the (already updated) lobby. -/
def addMemberToLobby (st : LobbyRegistry) (lobbyId : Str) (lobbyClient : LobbyClient) :
    LobbyRegistry × List Packet × Bool :=
  match objGet st.items lobbyId with
  | some lobby =>
      if !(lobby.isMember lobbyClient) && decide (lobby.numMembers < lobby.maxMembers) then
        let added := lobby.addMember lobbyClient
        if added.2 then
          let mapping1 := objSet st.networkClientToLobbyMapping lobbyClient.networkClient.token lobbyId
          let st1 := { st with items := objSet st.items lobbyId added.1, networkClientToLobbyMapping := mapping1 }
          let membersToNotify := added.1.otherMembers lobbyClient
          (st1,
            [⟨.peerConnected, .peerInfo lobbyClient.name lobbyId,
              membersToNotify.map (·.networkClient.socket)⟩],
            true)
        else
          ({ st with items := objSet st.items lobbyId added.1 }, [], false)
      else
        (st, [], false)
  | none => (st, [], false)

/-- `removeMemberFromLobby`: a host removal closes the whole lobby via
`removeById` (the `lobby_closed` cascade); a non-host removal writes
`lobby_peerDisconnect` to the other members and drops the member; in
both branches the member's token→lobby entry is deleted.  This is the
registry's own sends and state updates; the full source execution, in
which `lobby.removeMember(lobbyClient)` additionally fires the lobby's
`onMemberRemoved` observation to the mediator handler subscribed in
`start()`, is `removeMemberFromLobbyWithObservers`. -/
def removeMemberFromLobby (st : LobbyRegistry) (lobbyId : Str) (lobbyClient : LobbyClient) :
    LobbyRegistry × List Packet :=
  match objGet st.items lobbyId with
  | some lobby =>
      if lobby.isMember lobbyClient then
        if lobby.isHost lobbyClient then
          let closed := removeById st lobbyId
          let mapping1 := objDelete closed.1.networkClientToLobbyMapping lobbyClient.networkClient.token
          ({ closed.1 with networkClientToLobbyMapping := mapping1 }, closed.2)
        else
          let pkt : Packet :=
            ⟨.peerDisconnected, .peerInfo lobbyClient.name lobbyId,
              (lobby.otherMembers lobbyClient).map (·.networkClient.socket)⟩
          let mapping1 := objDelete st.networkClientToLobbyMapping lobbyClient.networkClient.token
          ({ st with items := objSet st.items lobbyId (lobby.removeMember lobbyClient), networkClientToLobbyMapping := mapping1 }, [pkt])
      else
        (st, [])
  | none => (st, [])

/-- The abort reason of the `handleLobbyMemberChange` handler subscribed
in `PtpMediator.start`. -/
def lobbyMembersChangedReason : Str := "Lobby members changed.".toList

/-- Delivery of a lobby membership-change observation
(`onMemberRemoved` / `onMemberAdded`) to the mediator handler
subscribed in `start()`.  `memberChangeSubscriber` is the content of
the lobby object's subscriber list: `some m` exactly when mediation was
started on the lobby with mediator `m`, `none` when none ever was.
`cleanup()` never unsubscribes the handler, so it also fires when the
mediator's registry entry is already deleted (the source closure keeps
the mediator object alive; the triggered `#abort` reads none of the
per-mediator maps the earlier `cleanup()` reset, so passing the
mediator value is observationally faithful).  The handler runs
`#abort('Lobby members changed.')` — `cleanup()` then
`onAbort.trigger` — and the registry's subscribers react: `onCleanup`
deletes the mediator's registry entry and unlocks the lobby object
(visible in `items` only while the lobby is still registered), and
`onAbort` sends `ptpMediation_aborted` to the lobby object's current
members (`lobbyNow`, the member list at trigger time). -/
def fireMemberChange (st : LobbyRegistry) (lobbyId : Str) (lobbyNow : Lobby)
    (memberChangeSubscriber : Option PtpMediator) : LobbyRegistry × List Packet :=
  match memberChangeSubscriber with
  | none => (st, [])
  | some m =>
      let aborted := PtpMediator.abortMediation m st.world lobbyMembersChangedReason
      let items1 :=
        if objHas st.items lobbyId then objSet st.items lobbyId lobbyNow.unlock else st.items
      let mediators1 := objDelete st.lobbyIdToPtpMediator lobbyId
      ({ st with items := items1, lobbyIdToPtpMediator := mediators1, world := aborted.2.1 },
        interpretMedEffs lobbyNow aborted.2.2)

/-- `removeMemberFromLobby` as the source executes it on the evented
`Lobby`: the same branches as `removeMemberFromLobby`, with the
`onMemberRemoved` observation that `lobby.removeMember(lobbyClient)`
fires delivered to `memberChangeSubscriber` between the member-list
mutation and the token→lobby entry deletion.  In the host branch the
observation fires after `removeById`'s `lobby_closed` cascade, on the
already-deregistered lobby object. -/
def removeMemberFromLobbyWithObservers (st : LobbyRegistry) (lobbyId : Str)
    (lobbyClient : LobbyClient) (memberChangeSubscriber : Option PtpMediator) :
    LobbyRegistry × List Packet :=
  match objGet st.items lobbyId with
  | some lobby =>
      if lobby.isMember lobbyClient then
        if lobby.isHost lobbyClient then
          let closed := removeById st lobbyId
          let lobbyAfter := lobby.removeMember lobbyClient
          let observed := fireMemberChange closed.1 lobbyId lobbyAfter memberChangeSubscriber
          let mapping1 :=
            objDelete observed.1.networkClientToLobbyMapping lobbyClient.networkClient.token
          ({ observed.1 with networkClientToLobbyMapping := mapping1 }, closed.2 ++ observed.2)
        else
          let pkt : Packet :=
            ⟨.peerDisconnected, .peerInfo lobbyClient.name lobbyId,
              (lobby.otherMembers lobbyClient).map (·.networkClient.socket)⟩
          let lobbyAfter := lobby.removeMember lobbyClient
          let st1 := { st with items := objSet st.items lobbyId lobbyAfter }
          let observed := fireMemberChange st1 lobbyId lobbyAfter memberChangeSubscriber
          let mapping1 :=
            objDelete observed.1.networkClientToLobbyMapping lobbyClient.networkClient.token
          ({ observed.1 with networkClientToLobbyMapping := mapping1 }, pkt :: observed.2)
      else (st, [])
  | none => (st, [])

/-- `addMemberToLobby` as the source executes it on the evented `Lobby`:
a successful `lobby.addMember` push triggers the `onMemberAdded`
observation — delivered to `memberChangeSubscriber` — before the
registry records the token→lobby entry and writes the
`lobby_peerConnect` frame.  (Through the service path the subscriber is
always `none`: a mediating lobby is locked and `joinLobby` refuses it
before any mutation.) -/
def addMemberToLobbyWithObservers (st : LobbyRegistry) (lobbyId : Str)
    (lobbyClient : LobbyClient) (memberChangeSubscriber : Option PtpMediator) :
    LobbyRegistry × List Packet × Bool :=
  match objGet st.items lobbyId with
  | some lobby =>
      if !(lobby.isMember lobbyClient) && decide (lobby.numMembers < lobby.maxMembers) then
        let added := lobby.addMember lobbyClient
        if added.2 then
          let st1 := { st with items := objSet st.items lobbyId added.1 }
          let observed := fireMemberChange st1 lobbyId added.1 memberChangeSubscriber
          let mapping1 :=
            objSet observed.1.networkClientToLobbyMapping lobbyClient.networkClient.token lobbyId
          let membersToNotify := added.1.otherMembers lobbyClient
          ({ observed.1 with networkClientToLobbyMapping := mapping1 },
            observed.2 ++
              [⟨.peerConnected, .peerInfo lobbyClient.name lobbyId,
                membersToNotify.map (·.networkClient.socket)⟩],
            true)
        else
          ({ st with items := objSet st.items lobbyId added.1 }, [], false)
      else (st, [], false)
  | none => (st, [], false)

/-- `isNetworkClientInLobby`: truthiness of the token→lobby entry. -/
def isNetworkClientInLobby (st : LobbyRegistry) (networkClient : NetworkClient) : Bool :=
  match objGet st.networkClientToLobbyMapping networkClient.token with
  | some lobbyId => !(lobbyId == ([] : Str))
  | none => false

/-- `#getPtpMediatorFromNetworkClient`. -/
def getPtpMediatorFromNetworkClient (st : LobbyRegistry) (networkClient : NetworkClient) :
    Option (Str × PtpMediator) :=
  match objGet st.networkClientToLobbyMapping networkClient.token with
  | some lobbyId =>
      if lobbyId ≠ [] && objHas st.items lobbyId then
        (objGet st.lobbyIdToPtpMediator lobbyId).map (fun m => (lobbyId, m))
      else none
  | none => none

/-- `handlePtpMediationConnect`: resolve the datagram sender's mediator
and feed it the datagram's OS-reported source address. -/
def handlePtpMediationConnect (st : LobbyRegistry) (addressIp : Str) (addressPort : Nat)
    (networkClient : NetworkClient) : LobbyRegistry × List Packet :=
  match getPtpMediatorFromNetworkClient st networkClient with
  | some found =>
      match objGet st.items found.1 with
      | some lobby =>
          let stepped := PtpMediator.addDetailsForNetworkClient lobby found.2 st.world networkClient
            ⟨addressIp, addressPort⟩
          let mediators1 := objSet st.lobbyIdToPtpMediator found.1 stepped.1
          ({ st with lobbyIdToPtpMediator := mediators1, world := stepped.2.1 },
            interpretMedEffs lobby stepped.2.2)
      | none => (st, [])
  | none => (st, [])

/-- `startPtpMediationForLobby`: refuse unless the id is truthy, the
lobby is registered and no mediator is live for it; otherwise create
the mediator, lock the lobby and `start()` the mediator. -/
def startPtpMediationForLobby (st : LobbyRegistry) (lobbyId : Str) : LobbyRegistry × List Packet :=
  match objGet st.items lobbyId with
  | some lobby =>
      if lobbyId ≠ [] && !(objHas st.lobbyIdToPtpMediator lobbyId) then
        let m0 : PtpMediator :=
          { udpPort := st.udpPort
            networkClientToPtpDetails := []
            networkClientsWithSuccessfulConnectionToPeers := []
            connectPacketInterval := none
            connectTimeout := none
            ptpConnectTimeout := none
            connectTimeoutMs := st.serverConnectTimeoutMs
            connectRequestIntervalMs := st.connectRequestIntervalMs
            ptpConnectTimeoutMs := st.ptpConnectTimeoutMs }
        let lockedLobby := lobby.lock
        let started := PtpMediator.start lockedLobby m0 st.world
        let mediators1 := objSet st.lobbyIdToPtpMediator lobbyId started.1
        ({ st with items := objSet st.items lobbyId lockedLobby, lobbyIdToPtpMediator := mediators1, world := started.2.1 },
          interpretMedEffs lockedLobby started.2.2)
      else (st, [])
  | none => (st, [])

/-! ### The lobbies service (`lobbies.service.ts`) -/

/-- The state-conflict errors of `joinLobby`, raised as thrown `Error`s
in the source and answered with HTTP 409 by the controller. -/
inductive JoinError where
  | clientAlreadyInLobby
  | lobbyNotFound
  | lobbyLocked
  | lobbyFull
  | nameTaken
  | addFailed
deriving DecidableEq

/-- `LobbiesService.joinLobby`.  The already-in-lobby, not-found, full,
name-taken and add-failure checks are from the source.  The locked
check is Modelled from the spec: the `LobbiesService` variant with the
lock check is absent from `src/` (its unit test asserts that
`joinLobby` on a locked lobby throws `The lobby is locked.`), so a
locked lobby is refused with `lobbyLocked` before the membership
mutation.  An error leaves the registry untouched: the thrown branch
returns no new state. -/
def joinLobby (st : LobbyRegistry) (networkClient : NetworkClient) (lobbyId : Str)
    (peerName : Str) : Except JoinError (LobbyRegistry × List Packet) :=
  if isNetworkClientInLobby st networkClient then .error .clientAlreadyInLobby
  else
    match objGet st.items lobbyId with
    | some lobby =>
        if lobby.locked then .error .lobbyLocked
        else if lobby.isFull then .error .lobbyFull
        else if lobby.members.any (fun member => member.name == peerName) then .error .nameTaken
        else
          let attempt := addMemberToLobby st lobbyId ⟨peerName, networkClient⟩
          if attempt.2.2 then .ok (attempt.1, attempt.2.1)
          else .error .addFailed
    | none => .error .lobbyNotFound

/-! ### The frame codec (`network.util.ts`)

`encodeWsMessage` serialises the payload to JSON, base-64 encodes the
UTF-8 bytes of that text, and joins method and encoding with a single
colon; `decodeWsMessage` splits the message on colons, takes the first
two fields, base-64 decodes the second and hands the resulting text to
`JSON.parse`.  The JSON and UTF-8 layers are external library calls
(the spec places them out of scope), so the embedding represents a
payload by the byte list of its JSON serialisation: two payloads are
equal exactly when their serialised bytes are, and `JSON.parse` is
deterministic on equal text.  The standard base-64 codec
(`encodeBase64` / `decodeBase64` of the `base64` library) is embedded
concretely so that its round trip is proved, not assumed. -/

/-- The standard base-64 alphabet, as in RFC 4648: indices 0–25 map to
`A`–`Z`, 26–51 to `a`–`z`, 52–61 to `0`–`9`, 62 to `+`, 63 to `/`. -/
def b64Char (n : Nat) : Char :=
  if n < 26 then Char.ofNat (65 + n)
  else if n < 52 then Char.ofNat (97 + (n - 26))
  else if n < 62 then Char.ofNat (48 + (n - 52))
  else if n = 62 then '+'
  else if n = 63 then '/'
  else '?'

/-- Index of a character in the base-64 alphabet. -/
def b64Index (c : Char) : Option Nat :=
  if 'A' ≤ c ∧ c ≤ 'Z' then some (c.toNat - 65)
  else if 'a' ≤ c ∧ c ≤ 'z' then some (c.toNat - 97 + 26)
  else if '0' ≤ c ∧ c ≤ '9' then some (c.toNat - 48 + 52)
  else if c = '+' then some 62
  else if c = '/' then some 63
  else none

/-- Standard base-64 encoding of a byte list: groups of three bytes
become four alphabet characters; a trailing group of one or two bytes
is padded with `==` or `=`. -/
def encodeBase64 : List Nat → List Char
  | [] => []
  | [b0] => [b64Char (b0 / 4), b64Char (b0 % 4 * 16), '=', '=']
  | [b0, b1] => [b64Char (b0 / 4), b64Char (b0 % 4 * 16 + b1 / 16), b64Char (b1 % 16 * 4), '=']
  | b0 :: b1 :: b2 :: rest =>
      b64Char (b0 / 4) :: b64Char (b0 % 4 * 16 + b1 / 16) ::
        b64Char (b1 % 16 * 4 + b2 / 64) :: b64Char (b2 % 64) :: encodeBase64 rest

/-- Standard base-64 decoding: four characters at a time, honouring the
`=` padding of the final group; anything else is a decode error. -/
def decodeBase64 : List Char → Option (List Nat)
  | [] => some []
  | c0 :: c1 :: c2 :: c3 :: rest =>
      if rest = [] ∧ c2 = '=' ∧ c3 = '=' then
        match b64Index c0, b64Index c1 with
        | some i0, some i1 => some [i0 * 4 + i1 / 16]
        | _, _ => none
      else if rest = [] ∧ c3 = '=' then
        match b64Index c0, b64Index c1, b64Index c2 with
        | some i0, some i1, some i2 => some [i0 * 4 + i1 / 16, i1 % 16 * 16 + i2 / 4]
        | _, _, _ => none
      else
        match b64Index c0, b64Index c1, b64Index c2, b64Index c3, decodeBase64 rest with
        | some i0, some i1, some i2, some i3, some bs =>
            some ((i0 * 4 + i1 / 16) :: (i1 % 16 * 16 + i2 / 4) :: (i2 % 4 * 64 + i3) :: bs)
        | _, _, _, _, _ => none
  | _ => none

/-- `msg.split(':')` of a JavaScript string. -/
def splitOnColon : Str → List Str
  | [] => [[]]
  | c :: rest =>
      if c = ':' then [] :: splitOnColon rest
      else
        match splitOnColon rest with
        | [] => [[c]]
        | p :: ps => (c :: p) :: ps

/-- `encodeWsMessage`: the wire frame is the method, a single colon and
the base-64 encoding of the payload's JSON bytes. -/
def encodeWsMessage (method : Str) (payloadJsonBytes : List Nat) : Str :=
  method ++ ':' :: encodeBase64 payloadJsonBytes

/-- `decodeWsMessage`: destructure `msg.split(':')` as
`[method, payload]`; when the payload field is present and truthy
(non-empty), base-64 decode it; the result bytes are what the source
hands to `JSON.parse`.  A missing or empty payload field, or a base-64
decode failure, leaves the payload undefined. -/
def decodeWsMessage (msg : Str) : Str × Option (List Nat) :=
  let parts := splitOnColon msg
  let method := parts.headD []
  match parts[1]? with
  | some payloadField => if payloadField ≠ [] then (method, decodeBase64 payloadField) else (method, none)
  | none => (method, none)

/-- The token→lobby index of the Lobby Registry is sound when every
entry points at a registered lobby. -/
def registryInv (st : LobbyRegistry) : Prop :=
  ∀ p ∈ st.networkClientToLobbyMapping, objHas st.items p.2 = true

/-! ### Concrete fixtures

A two-member lobby (host `A` on socket 0 with token `a`, peer `B` on
socket 1 with token `b`), used to evaluate the embedded operations at
concrete inputs. -/

def clientA : NetworkClient := ⟨['a'], 0⟩

def clientB : NetworkClient := ⟨['b'], 1⟩

def memberA : LobbyClient := ⟨['A'], clientA⟩

def memberB : LobbyClient := ⟨['B'], clientB⟩

/-- A two-member locked lobby hosted by `A`. -/
def twoMemberLobby : Lobby := ⟨['L'], memberA, 2, true, [memberA, memberB], true⟩

/-- A mediator as constructed by `startPtpMediationForLobby` under the
default options. -/
def freshMediator : PtpMediator := ⟨5990, [], [], none, none, none, 300000, 10000, 300000⟩

/-- The mediation of `twoMemberLobby` just after `start()` on a fresh
timer table: the reminder interval holds timer id 1, the capture
deadline timer id 2. -/
def startedMediation : PtpMediator × TimerWorld × List MedEff :=
  PtpMediator.start twoMemberLobby freshMediator ⟨1, []⟩

/-- The mediation after the host's datagram is captured. -/
def capturedHostStep : PtpMediator × TimerWorld × List MedEff :=
  PtpMediator.addDetailsForNetworkClient twoMemberLobby startedMediation.1 startedMediation.2.1
    clientA ⟨['i'], 40⟩

/-- The mediation after the last uncaptured member's datagram arrives:
the all-captured transition runs. -/
def allCapturedStep : PtpMediator × TimerWorld × List MedEff :=
  PtpMediator.addDetailsForNetworkClient twoMemberLobby capturedHostStep.1 capturedHostStep.2.1
    clientB ⟨['j'], 41⟩

/-- A mediator of `twoMemberLobby` with both members captured and the
post-transition timers of `allCapturedStep` (reminder interval id 1
still live, peer-connect deadline id 3 armed). -/
def allCapturedMediator : PtpMediator :=
  ⟨5990, [(['a'], ⟨['i'], 40⟩), (['b'], ⟨['j'], 41⟩)], [], some 1, some 2, some 3,
    300000, 10000, 300000⟩

/-- How `addDetailsForNetworkClient` answers a duplicate
`ptpMediation_connect` datagram from the already-captured member `B`
after the all-captured transition. -/
def duplicateDatagramStep : PtpMediator × TimerWorld × List MedEff :=
  PtpMediator.addDetailsForNetworkClient twoMemberLobby allCapturedMediator ⟨4, [1, 3]⟩
    clientB ⟨['k'], 42⟩

/-- The id under which `twoMemberLobby` is registered in the registry
fixture. -/
def lobbyIdW : Str := ['Q', 'Q', 'Q', 'Q', 'Q']

/-- A registry holding `twoMemberLobby` with a live mediator for it. -/
def registryWithMediator : LobbyRegistry :=
  ⟨[(lobbyIdW, twoMemberLobby)], [(['a'], lobbyIdW), (['b'], lobbyIdW)],
    [(lobbyIdW, allCapturedMediator)], 5990, 300000, 10000, 300000, ⟨4, [1, 3]⟩⟩

/-- The detail map of `allCapturedMediator` after member `B`'s duplicate
observation overwrites its entry. -/
def duplicateDetails : List (Str × PtpDetails) :=
  objSet allCapturedMediator.networkClientToPtpDetails clientB.token ⟨['k'], 42⟩

/-- `allCapturedMediator` with `B`'s overwritten observation. -/
def overwrittenMediator : PtpMediator :=
  { allCapturedMediator with networkClientToPtpDetails := duplicateDetails }

/-- A mediator of `twoMemberLobby` that has captured only the host. -/
def halfCapturedMediator : PtpMediator :=
  ⟨5990, [(['a'], ⟨['i'], 40⟩)], [], some 1, some 2, none, 300000, 10000, 300000⟩

/-- A third session, in no lobby of the fixtures. -/
def clientC : NetworkClient := ⟨['c'], 2⟩

/-- `n.toString(36).toUpperCase()` for the single base-36 digit `n`:
`0`–`9` for values below ten, `A`–`Z` for ten to thirty-five. -/
def digit36 (n : Nat) : Char :=
  if n < 10 then Char.ofNat (48 + n) else Char.ofNat (55 + n)

/-- `generateBase36Id`: one uppercased base-36 digit per draw of
`randRange(0, 36)` (the draws stand for `Math.random`'s outputs),
joined to a string of the requested length. -/
def generateBase36Id (length : Nat) (draws : Nat → Fin 36) : Str :=
  (List.range length).map (fun i => digit36 (draws i))

/-- An empty registry on a fresh timer table. -/
def emptyRegistry : LobbyRegistry := ⟨[], [], [], 5990, 300000, 10000, 300000, ⟨1, []⟩⟩

/-- A one-member lobby hosted by `A`. -/
def singletonLobby : Lobby := ⟨['S'], memberA, 4, true, [memberA], false⟩

/-- The registry after registering `singletonLobby` under the id that
all-zero draws generate. -/
def registeredFixture : LobbyRegistry :=
  ⟨[(['0', '0', '0', '0', '0'], singletonLobby)], [(['a'], ['0', '0', '0', '0', '0'])], [],
    5990, 300000, 10000, 300000, ⟨1, []⟩⟩

/-! ### Lemmas about the embedded JavaScript objects -/

theorem objGet_objSet_self {α : Type} (m : List (Str × α)) (k : Str) (v : α) :
    objGet (objSet m k v) k = some v := by
  induction m with
  | nil => simp [objSet, objGet]
  | cons p rest ih =>
      by_cases h : p.1 = k
      · simp [objSet, objGet, h]
      · simp [objSet, objGet, h, ih]

theorem objGet_objSet_ne {α : Type} (m : List (Str × α)) (k k' : Str) (v : α) (h : k' ≠ k) :
    objGet (objSet m k v) k' = objGet m k' := by
  have hk : ¬ k = k' := fun hh => h hh.symm
  induction m with
  | nil => simp [objSet, objGet, hk]
  | cons p rest ih =>
      by_cases hp : p.1 = k
      · rw [objSet, if_pos hp, objGet, objGet, if_neg hk, if_neg (hp ▸ hk)]
      · rw [objSet, if_neg hp, objGet, objGet]
        by_cases hp' : p.1 = k'
        · rw [if_pos hp', if_pos hp']
        · rw [if_neg hp', if_neg hp', ih]

theorem objGet_objDelete_self {α : Type} (m : List (Str × α)) (k : Str) :
    objGet (objDelete m k) k = none := by
  induction m with
  | nil => simp [objDelete, objGet]
  | cons p rest ih =>
      by_cases h : p.1 = k
      · simp [objDelete, h, ih]
      · simp [objDelete, objGet, h, ih]

theorem mem_objSet {α : Type} {m : List (Str × α)} {k : Str} {v : α} {p : Str × α}
    (h : p ∈ objSet m k v) : p = (k, v) ∨ p ∈ m := by
  induction m with
  | nil => simpa [objSet] using h
  | cons q rest ih =>
      by_cases hq : q.1 = k
      · rw [objSet, if_pos hq] at h
        rcases List.mem_cons.mp h with h1 | h1
        · exact Or.inl h1
        · exact Or.inr (List.mem_cons_of_mem q h1)
      · rw [objSet, if_neg hq] at h
        rcases List.mem_cons.mp h with h1 | h1
        · exact Or.inr (h1 ▸ List.mem_cons_self q rest)
        · rcases ih h1 with h2 | h2
          · exact Or.inl h2
          · exact Or.inr (List.mem_cons_of_mem q h2)

theorem mem_objDelete {α : Type} {m : List (Str × α)} {k : Str} {p : Str × α}
    (h : p ∈ objDelete m k) : p ∈ m := by
  induction m with
  | nil => exact absurd h (by simp [objDelete])
  | cons q rest ih =>
      by_cases hq : q.1 = k
      · rw [objDelete, if_pos hq] at h
        exact List.mem_cons_of_mem q (ih h)
      · rw [objDelete, if_neg hq] at h
        rcases List.mem_cons.mp h with h1 | h1
        · exact h1 ▸ List.mem_cons_self q rest
        · exact List.mem_cons_of_mem q (ih h1)

theorem objHas_objSet_self {α : Type} (m : List (Str × α)) (k : Str) (v : α) :
    objHas (objSet m k v) k = true := by
  simp [objHas, objGet_objSet_self]

theorem objHas_objSet_of_objHas {α : Type} {m : List (Str × α)} {k' : Str} (k : Str) (v : α)
    (h : objHas m k' = true) : objHas (objSet m k v) k' = true := by
  by_cases hk : k' = k
  · subst hk
    exact objHas_objSet_self m k' v
  · simpa [objHas, objGet_objSet_ne m k k' v hk] using h

theorem objHas_objDelete_of_ne {α : Type} {m : List (Str × α)} {k k' : Str}
    (hne : k' ≠ k) (h : objHas m k' = true) : objHas (objDelete m k) k' = true := by
  induction m with
  | nil =>
      rw [objHas, objGet] at h
      simp at h
  | cons q rest ih =>
      by_cases hq : q.1 = k
      · rw [objDelete, if_pos hq]
        apply ih
        rw [objHas, objGet] at h
        have hq' : ¬ q.1 = k' := fun hh => hne (by rw [← hh, hq])
        rwa [if_neg hq'] at h
      · rw [objDelete, if_neg hq]
        by_cases hq' : q.1 = k'
        · rw [objHas, objGet, if_pos hq']
          rfl
        · rw [objHas, objGet, if_neg hq']
          rw [objHas, objGet, if_neg hq'] at h
          exact ih h

theorem objKeys_contains_eq_objHas {α : Type} (m : List (Str × α)) (k : Str) :
    (objKeys m).contains k = objHas m k := by
  induction m with
  | nil => rfl
  | cons q rest ih =>
      by_cases hq : q.1 = k
      · have hb : (k == q.1) = true := by
          rw [beq_iff_eq]
          exact hq.symm
        rw [objKeys, List.map_cons, List.contains_cons, hb, Bool.true_or, objHas, objGet,
          if_pos hq]
        rfl
      · have hb : (k == q.1) = false := by
          rw [beq_eq_false_iff_ne]
          exact fun hh => hq hh.symm
        rw [objKeys, List.map_cons, List.contains_cons, hb, Bool.false_or, objHas, objGet,
          if_neg hq]
        exact ih

/-! ### Lemmas about the base-64 codec -/

theorem b64Index_b64Char_fin : ∀ i : Fin 64, b64Index (b64Char i.val) = some i.val := by decide

theorem b64Index_b64Char {n : Nat} (h : n < 64) : b64Index (b64Char n) = some n :=
  b64Index_b64Char_fin ⟨n, h⟩

theorem b64Char_ne_pad_fin : ∀ i : Fin 64, b64Char i.val ≠ '=' := by decide

theorem b64Char_ne_pad {n : Nat} (h : n < 64) : b64Char n ≠ '=' :=
  b64Char_ne_pad_fin ⟨n, h⟩

theorem b64Char_ne_colon_fin : ∀ i : Fin 64, b64Char i.val ≠ ':' := by decide

theorem b64Char_ne_colon {n : Nat} (h : n < 64) : b64Char n ≠ ':' :=
  b64Char_ne_colon_fin ⟨n, h⟩

theorem encodeBase64_ne_nil : ∀ {bs : List Nat}, bs ≠ [] → encodeBase64 bs ≠ []
  | [], h => absurd rfl h
  | [_], _ => by simp [encodeBase64]
  | [_, _], _ => by simp [encodeBase64]
  | _ :: _ :: _ :: _, _ => by simp [encodeBase64]

theorem mem_encodeBase64_ne_colon {bs : List Nat} (hb : ∀ b ∈ bs, b < 256) :
    ∀ c ∈ encodeBase64 bs, c ≠ ':' := by
  induction bs using encodeBase64.induct with
  | case1 => simp [encodeBase64]
  | case2 b0 =>
      have h0 : b0 < 256 := hb b0 (by simp)
      intro c hc
      rw [encodeBase64] at hc
      simp only [List.mem_cons, List.not_mem_nil, or_false] at hc
      rcases hc with hc | hc | hc | hc
      · exact hc ▸ b64Char_ne_colon (by omega)
      · exact hc ▸ b64Char_ne_colon (by omega)
      · exact hc ▸ (by decide)
      · exact hc ▸ (by decide)
  | case3 b0 b1 =>
      have h0 : b0 < 256 := hb b0 (by simp)
      have h1 : b1 < 256 := hb b1 (by simp)
      intro c hc
      rw [encodeBase64] at hc
      simp only [List.mem_cons, List.not_mem_nil, or_false] at hc
      rcases hc with hc | hc | hc | hc
      · exact hc ▸ b64Char_ne_colon (by omega)
      · exact hc ▸ b64Char_ne_colon (by omega)
      · exact hc ▸ b64Char_ne_colon (by omega)
      · exact hc ▸ (by decide)
  | case4 b0 b1 b2 rest ih =>
      have h0 : b0 < 256 := hb b0 (by simp)
      have h1 : b1 < 256 := hb b1 (by simp)
      have h2 : b2 < 256 := hb b2 (by simp)
      have hrest : ∀ b ∈ rest, b < 256 := fun b hbm => hb b (by simp [hbm])
      intro c hc
      rw [encodeBase64] at hc
      simp only [List.mem_cons] at hc
      rcases hc with hc | hc | hc | hc | hc
      · exact hc ▸ b64Char_ne_colon (by omega)
      · exact hc ▸ b64Char_ne_colon (by omega)
      · exact hc ▸ b64Char_ne_colon (by omega)
      · exact hc ▸ b64Char_ne_colon (by omega)
      · exact ih hrest c hc

theorem decodeBase64_encodeBase64 {bs : List Nat} (hb : ∀ b ∈ bs, b < 256) :
    decodeBase64 (encodeBase64 bs) = some bs := by
  induction bs using encodeBase64.induct with
  | case1 => rfl
  | case2 b0 =>
      have h0 : b0 < 256 := hb b0 (by simp)
      rw [encodeBase64, decodeBase64, if_pos ⟨rfl, rfl, rfl⟩,
        b64Index_b64Char (show b0 / 4 < 64 by omega),
        b64Index_b64Char (show b0 % 4 * 16 < 64 by omega)]
      have e0 : b0 / 4 * 4 + b0 % 4 * 16 / 16 = b0 := by omega
      show some [b0 / 4 * 4 + b0 % 4 * 16 / 16] = some [b0]
      rw [e0]
  | case3 b0 b1 =>
      have h0 : b0 < 256 := hb b0 (by simp)
      have h1 : b1 < 256 := hb b1 (by simp)
      have hc2 : b64Char (b1 % 16 * 4) ≠ '=' := b64Char_ne_pad (by omega)
      rw [encodeBase64, decodeBase64, if_neg (by
          rintro ⟨-, hc, -⟩
          exact hc2 hc),
        if_pos ⟨rfl, rfl⟩,
        b64Index_b64Char (show b0 / 4 < 64 by omega),
        b64Index_b64Char (show b0 % 4 * 16 + b1 / 16 < 64 by omega),
        b64Index_b64Char (show b1 % 16 * 4 < 64 by omega)]
      have e0 : b0 / 4 * 4 + (b0 % 4 * 16 + b1 / 16) / 16 = b0 := by omega
      have e1 : (b0 % 4 * 16 + b1 / 16) % 16 * 16 + b1 % 16 * 4 / 4 = b1 := by omega
      show some [b0 / 4 * 4 + (b0 % 4 * 16 + b1 / 16) / 16,
        (b0 % 4 * 16 + b1 / 16) % 16 * 16 + b1 % 16 * 4 / 4] = some [b0, b1]
      rw [e0, e1]
  | case4 b0 b1 b2 rest ih =>
      have h0 : b0 < 256 := hb b0 (by simp)
      have h1 : b1 < 256 := hb b1 (by simp)
      have h2 : b2 < 256 := hb b2 (by simp)
      have hrest : ∀ b ∈ rest, b < 256 := fun b hbm => hb b (by simp [hbm])
      have hc2 : b64Char (b1 % 16 * 4 + b2 / 64) ≠ '=' := b64Char_ne_pad (by omega)
      have hc3 : b64Char (b2 % 64) ≠ '=' := b64Char_ne_pad (by omega)
      rw [encodeBase64, decodeBase64, if_neg (by
          rintro ⟨-, hc, -⟩
          exact hc2 hc),
        if_neg (by
          rintro ⟨-, hc⟩
          exact hc3 hc),
        b64Index_b64Char (show b0 / 4 < 64 by omega),
        b64Index_b64Char (show b0 % 4 * 16 + b1 / 16 < 64 by omega),
        b64Index_b64Char (show b1 % 16 * 4 + b2 / 64 < 64 by omega),
        b64Index_b64Char (show b2 % 64 < 64 by omega),
        ih hrest]
      have e0 : b0 / 4 * 4 + (b0 % 4 * 16 + b1 / 16) / 16 = b0 := by omega
      have e1 : (b0 % 4 * 16 + b1 / 16) % 16 * 16 + (b1 % 16 * 4 + b2 / 64) / 4 = b1 := by omega
      have e2 : (b1 % 16 * 4 + b2 / 64) % 4 * 64 + b2 % 64 = b2 := by omega
      show some ((b0 / 4 * 4 + (b0 % 4 * 16 + b1 / 16) / 16) ::
        ((b0 % 4 * 16 + b1 / 16) % 16 * 16 + (b1 % 16 * 4 + b2 / 64) / 4) ::
        ((b1 % 16 * 4 + b2 / 64) % 4 * 64 + b2 % 64) :: rest) = some (b0 :: b1 :: b2 :: rest)
      rw [e0, e1, e2]

/-! ### Lemmas about `split(':')` -/

theorem splitOnColon_of_not_mem {zs : Str} (h : ':' ∉ zs) : splitOnColon zs = [zs] := by
  induction zs with
  | nil => rfl
  | cons c rest ih =>
      have hc : ¬ c = ':' := fun hh => h (hh ▸ List.mem_cons_self c rest)
      have hr : ':' ∉ rest := fun hh => h (List.mem_cons_of_mem c hh)
      rw [splitOnColon, if_neg hc, ih hr]

theorem splitOnColon_append {xs : Str} (ys : Str) (h : ':' ∉ xs) :
    splitOnColon (xs ++ ':' :: ys) = xs :: splitOnColon ys := by
  induction xs with
  | nil => rw [List.nil_append, splitOnColon, if_pos rfl]
  | cons c rest ih =>
      have hc : ¬ c = ':' := fun hh => h (hh ▸ List.mem_cons_self c rest)
      have hr : ':' ∉ rest := fun hh => h (List.mem_cons_of_mem c hh)
      rw [List.cons_append, splitOnColon, if_neg hc, ih hr]

theorem objKeys_objSet_of_objHas {α : Type} {m : List (Str × α)} {k : Str} (v : α)
    (h : objHas m k = true) : objKeys (objSet m k v) = objKeys m := by
  induction m with
  | nil =>
      rw [objHas, objGet] at h
      simp at h
  | cons q rest ih =>
      by_cases hq : q.1 = k
      · rw [objSet, if_pos hq, objKeys, objKeys, List.map_cons, List.map_cons, hq]
      · rw [objHas, objGet, if_neg hq] at h
        rw [objSet, if_neg hq, objKeys, objKeys, List.map_cons, List.map_cons]
        have := ih h
        rw [objKeys, objKeys] at this
        rw [this]

/-- `#handleItemRemoved` never touches the `items` table (the base
class's `removeById` already deleted the entry) and replaces the
token→lobby index with its filtrate. -/
theorem handleItemRemoved_state (s : LobbyRegistry) (i : Str) (lb : Lobby) :
    (handleItemRemoved s i lb).1.items = s.items
    ∧ (handleItemRemoved s i lb).1.networkClientToLobbyMapping
        = s.networkClientToLobbyMapping.filter (fun p => !(p.2 == i)) := by
  rw [handleItemRemoved]
  rcases hm : objGet s.lobbyIdToPtpMediator i with _ | m <;> simp [hm]

theorem registryInv_removeById {st : LobbyRegistry} (hinv : registryInv st) (id : Str) :
    registryInv (removeById st id).1 := by
  rw [removeById]
  rcases h : objGet st.items id with _ | lobby
  · exact hinv
  · intro p hp
    have hstate := handleItemRemoved_state
      { st with items := objDelete st.items id } id lobby
    rw [hstate.2] at hp
    rw [hstate.1]
    rw [List.mem_filter] at hp
    obtain ⟨hpm, hpne⟩ := hp
    have hne : p.2 ≠ id := by
      intro hh
      rw [hh] at hpne
      simp at hpne
    exact objHas_objDelete_of_ne hne (hinv p hpm)

/-! ### Claim theorems -/

/-- C9: for every valid frame — a method string without a colon and a
JSON-serializable payload (represented by the non-empty byte list of
its JSON serialisation) — encoding to the `method:base64(JSON(payload))`
wire form and then decoding restores the original `(method, payload)`
pair: the decoder returns the same method and hands `JSON.parse`
exactly the bytes that were serialised. -/
theorem encodeWsMessage_decodeWsMessage_roundtrip (method : Str) (payloadJsonBytes : List Nat)
    (hm : ':' ∉ method) (hp : payloadJsonBytes ≠ []) (hb : ∀ b ∈ payloadJsonBytes, b < 256) :
    decodeWsMessage (encodeWsMessage method payloadJsonBytes) = (method, some payloadJsonBytes) := by
  have hcol : ':' ∉ encodeBase64 payloadJsonBytes := fun hmem =>
    (mem_encodeBase64_ne_colon hb ':' hmem) rfl
  have hsplit : splitOnColon (method ++ ':' :: encodeBase64 payloadJsonBytes)
      = method :: [encodeBase64 payloadJsonBytes] := by
    rw [splitOnColon_append _ hm, splitOnColon_of_not_mem hcol]
  rw [encodeWsMessage, decodeWsMessage]
  simp only [hsplit, List.headD_cons, List.getElem?_cons_succ, List.getElem?_cons_zero]
  rw [if_pos (encodeBase64_ne_nil hp), decodeBase64_encodeBase64 hb]

/-- Witness for C9 at the frame `ping:e30=` (payload bytes of the JSON
text of the empty object). -/
theorem encodeWsMessage_decodeWsMessage_roundtrip_witness :
    (':' ∉ "ping".toList) ∧ ([123, 125] ≠ ([] : List Nat)) ∧ (∀ b ∈ [123, 125], b < 256) ∧
      decodeWsMessage (encodeWsMessage "ping".toList [123, 125]) = ("ping".toList, some [123, 125]) :=
  ⟨by decide, by decide, by decide,
    encodeWsMessage_decodeWsMessage_roundtrip "ping".toList [123, 125] (by decide) (by decide)
      (by decide)⟩

/-- `#handleItemRemoved`'s own frames are exactly the one `lobby_closed`
frame, with or without a live mediator: `cleanup()` triggers only
`onCleanup`, which writes nothing. -/
theorem handleItemRemoved_packets (s : LobbyRegistry) (i : Str) (lb : Lobby) :
    (handleItemRemoved s i lb).2 = [lobbyClosedPacket i lb] := by
  rw [handleItemRemoved]
  rcases hm : objGet s.lobbyIdToPtpMediator i with _ | mm <;>
    simp [hm, interpretMedEffs, PtpMediator.cleanup]

/-- Counterexample for C1 as stated: the host of the mediating
two-member lobby disconnects.  The mediator is live when the closure
starts, yet the closure's frames are not only the `lobby_closed`
cascade: `lobby.removeMember` fires `onMemberRemoved` to the mediator
handler that `cleanup()` never unsubscribed, whose abort sends a
`ptpMediation_aborted('Lobby members changed.')` frame to the remaining
member's socket after the `lobby_closed` frame. -/
theorem externalClose_abort_frame_counterexample :
    objHas registryWithMediator.lobbyIdToPtpMediator lobbyIdW = true
    ∧ twoMemberLobby.isHost memberA = true
    ∧ (removeMemberFromLobbyWithObservers registryWithMediator lobbyIdW memberA
          (some allCapturedMediator)).2
        = [lobbyClosedPacket lobbyIdW twoMemberLobby,
            ⟨WsMethod.ptpMediationAborted, WsPayload.abortInfo lobbyMembersChangedReason, [1]⟩]
    ∧ ∃ p ∈ (removeMemberFromLobbyWithObservers registryWithMediator lobbyIdW memberA
          (some allCapturedMediator)).2, p.method = WsMethod.ptpMediationAborted := by
  decide

/-- C1 (amended): when a lobby is closed externally through the
host-disconnect cascade while its mediator is live, `#handleItemRemoved`
itself tears the mediator down through `cleanup()` and sends only the
`lobby_closed` frame — but the closure as a whole is not silent: the
mediator's membership-change subscription survives `cleanup()`, so the
`lobby.removeMember` that follows fires the handler, which aborts and
sends exactly one `ptpMediation_aborted('Lobby members changed.')`
frame to the remaining members, after the `lobby_closed` frame; the
mediator's registry entry is gone afterwards. -/
theorem externalClose_lobbyClosed_then_memberChange_abort (st : LobbyRegistry) (lobbyId : Str)
    (lobbyClient : LobbyClient) (lobby : Lobby) (m : PtpMediator)
    (hfound : objGet st.items lobbyId = some lobby)
    (hmem : lobby.isMember lobbyClient = true)
    (hhost : lobby.isHost lobbyClient = true) :
    (removeMemberFromLobbyWithObservers st lobbyId lobbyClient (some m)).2
        = [lobbyClosedPacket lobbyId lobby,
            ⟨.ptpMediationAborted, .abortInfo lobbyMembersChangedReason,
              (lobby.removeMember lobbyClient).members.map (·.networkClient.socket)⟩]
    ∧ objGet (removeMemberFromLobbyWithObservers st lobbyId lobbyClient
        (some m)).1.lobbyIdToPtpMediator lobbyId = none := by
  have hclosed2 : (removeById st lobbyId).2 = [lobbyClosedPacket lobbyId lobby] := by
    rw [removeById]
    simp only [hfound]
    exact handleItemRemoved_packets _ _ _
  rw [removeMemberFromLobbyWithObservers]
  simp only [hfound, hmem, if_true, hhost, fireMemberChange, PtpMediator.abortMediation,
    PtpMediator.cleanup, interpretMedEffs, List.flatMap_cons, List.flatMap_nil, List.append_nil,
    List.nil_append, hclosed2]
  exact ⟨rfl, objGet_objDelete_self _ lobbyId⟩

/-- Witness for C1's amended theorem: the host-disconnect closure of the
mediating two-member lobby fixture. -/
theorem externalClose_lobbyClosed_then_memberChange_abort_witness :
    (objGet registryWithMediator.items lobbyIdW = some twoMemberLobby
      ∧ twoMemberLobby.isMember memberA = true
      ∧ twoMemberLobby.isHost memberA = true) ∧
      ((removeMemberFromLobbyWithObservers registryWithMediator lobbyIdW memberA
            (some allCapturedMediator)).2
          = [lobbyClosedPacket lobbyIdW twoMemberLobby,
              ⟨.ptpMediationAborted, .abortInfo lobbyMembersChangedReason,
                (twoMemberLobby.removeMember memberA).members.map (·.networkClient.socket)⟩]
        ∧ objGet (removeMemberFromLobbyWithObservers registryWithMediator lobbyIdW memberA
            (some allCapturedMediator)).1.lobbyIdToPtpMediator lobbyIdW = none) :=
  ⟨⟨by decide, by decide, by decide⟩,
    externalClose_lobbyClosed_then_memberChange_abort registryWithMediator lobbyIdW memberA
      twoMemberLobby allCapturedMediator (by decide) (by decide) (by decide)⟩

/-- C2: the claim requires the all-captured transition to cancel both
the reminder interval timer and the capture deadline.  Evaluating the
code on the two-member mediation (`start()` arms the reminder interval
as timer 1 and the capture deadline as timer 2; both members' datagrams
then arrive): the transition runs — the capture deadline 2 is
cancelled, the two `ptpMediation_peersConnection_start` frames are
dispatched and the peer-connect deadline is armed as timer 3 — but the
reminder interval timer 1 is STILL ARMED afterwards, because
`#requestStartPeerConnection` passes the interval's millisecond value
(10000) to `clearInterval` instead of the stored timer handle.  This
contradicts the claim (and the spec names this very slip), so the code,
not the claim, is wrong. -/
theorem allCaptured_transition_leaves_reminder_timer_armed :
    allCapturedStep.1.connectPacketInterval = some 1
    ∧ allCapturedStep.2.1.active.contains 1 = true
    ∧ allCapturedStep.1.connectTimeout = some 2
    ∧ allCapturedStep.2.1.active.contains 2 = false
    ∧ allCapturedStep.1.ptpConnectTimeout = some 3
    ∧ allCapturedStep.2.1.active.contains 3 = true
    ∧ (allCapturedStep.2.2.filterMap (fun e =>
        match e with
        | MedEff.send p => some p.method
        | _ => none)) = [WsMethod.startPeerConnection, WsMethod.startPeerConnection]
    ∧ MedEff.startingConnection ∈ allCapturedStep.2.2 := by
  decide

/-- Counterexample for C3 as stated: member `B` is already captured,
yet a further `ptpMediation_connect` datagram from `B` (arriving after
the all-captured transition) re-runs the all-captured dispatch: the
effect list is not empty, it re-sends the two
`ptpMediation_peersConnection_start` frames and re-arms the
peer-connect deadline (as fresh timer 4, leaking the old handle 3). -/
theorem duplicate_datagram_redispatches_counterexample :
    (objKeys allCapturedMediator.networkClientToPtpDetails).contains clientB.token = true
    ∧ duplicateDatagramStep.2.2 ≠ []
    ∧ (duplicateDatagramStep.2.2.filterMap (fun e =>
        match e with
        | MedEff.send p => some p.method
        | _ => none)) = [WsMethod.startPeerConnection, WsMethod.startPeerConnection]
    ∧ duplicateDatagramStep.1.ptpConnectTimeout = some 4 := by
  decide

/-- C3 (amended): a further `ptpMediation_connect` datagram from an
already-captured member only overwrites the recorded observation with
the most recent source address; while some member is still uncaptured
it triggers nothing further, but when every member is already captured
the duplicate re-runs the all-captured transition
(`#requestStartPeerConnection`'s frame dispatches and peer-connect
deadline arming). -/
theorem addDetails_duplicate_overwrites (lobby : Lobby) (m : PtpMediator) (w : TimerWorld)
    (nc : NetworkClient) (d : PtpDetails)
    (hcap : objHas m.networkClientToPtpDetails nc.token = true) :
    (PtpMediator.addDetailsForNetworkClient lobby m w nc d).1.networkClientToPtpDetails
        = objSet m.networkClientToPtpDetails nc.token d
    ∧ (PtpMediator.haveAllPeersSharedConnectionDetailsWithServer lobby m = false →
        PtpMediator.addDetailsForNetworkClient lobby m w nc d
          = ({ m with networkClientToPtpDetails := objSet m.networkClientToPtpDetails nc.token d },
              w, []))
    ∧ (PtpMediator.haveAllPeersSharedConnectionDetailsWithServer lobby m = true →
        PtpMediator.addDetailsForNetworkClient lobby m w nc d
          = PtpMediator.requestStartPeerConnection lobby
              { m with networkClientToPtpDetails := objSet m.networkClientToPtpDetails nc.token d }
              w) := by
  have hkeys : objKeys (objSet m.networkClientToPtpDetails nc.token d)
      = objKeys m.networkClientToPtpDetails := objKeys_objSet_of_objHas d hcap
  have hall : PtpMediator.haveAllPeersSharedConnectionDetailsWithServer lobby
        { m with networkClientToPtpDetails := objSet m.networkClientToPtpDetails nc.token d }
      = PtpMediator.haveAllPeersSharedConnectionDetailsWithServer lobby m := by
    simp only [PtpMediator.haveAllPeersSharedConnectionDetailsWithServer, hkeys]
  refine ⟨?_, ?_, ?_⟩
  · rw [PtpMediator.addDetailsForNetworkClient]
    simp only [hall]
    by_cases h : PtpMediator.haveAllPeersSharedConnectionDetailsWithServer lobby m = true
    · simp only [h, if_true, PtpMediator.requestStartPeerConnection]
    · rw [Bool.not_eq_true] at h
      simp only [h, Bool.false_eq_true, if_false]
  · intro h
    rw [PtpMediator.addDetailsForNetworkClient]
    simp only [hall, h, Bool.false_eq_true, if_false]
  · intro h
    rw [PtpMediator.addDetailsForNetworkClient]
    simp only [hall, h, if_true]

/-- Witness for C3's amended theorem: the duplicate datagram of
`duplicateDatagramStep`, on the mediator with both members captured. -/
theorem addDetails_duplicate_overwrites_witness :
    objHas allCapturedMediator.networkClientToPtpDetails clientB.token = true ∧
      ((PtpMediator.addDetailsForNetworkClient twoMemberLobby allCapturedMediator ⟨4, [1, 3]⟩
            clientB ⟨['k'], 42⟩).1.networkClientToPtpDetails = duplicateDetails
        ∧ (PtpMediator.haveAllPeersSharedConnectionDetailsWithServer twoMemberLobby
              allCapturedMediator = false →
            PtpMediator.addDetailsForNetworkClient twoMemberLobby allCapturedMediator ⟨4, [1, 3]⟩
                clientB ⟨['k'], 42⟩
              = (overwrittenMediator, ⟨4, [1, 3]⟩, []))
        ∧ (PtpMediator.haveAllPeersSharedConnectionDetailsWithServer twoMemberLobby
              allCapturedMediator = true →
            PtpMediator.addDetailsForNetworkClient twoMemberLobby allCapturedMediator ⟨4, [1, 3]⟩
                clientB ⟨['k'], 42⟩
              = PtpMediator.requestStartPeerConnection twoMemberLobby overwrittenMediator
                  ⟨4, [1, 3]⟩)) :=
  ⟨by decide,
    addDetails_duplicate_overwrites twoMemberLobby allCapturedMediator ⟨4, [1, 3]⟩ clientB
      ⟨['k'], 42⟩ (by decide)⟩

/-- C7: a reminder tick resends `ptpMediation_send` to exactly the
members whose datagram has not yet been observed: every uncaptured
member's connect request is among the tick's packets, every packet of
the tick is the connect request of some uncaptured client, and — as
long as a socket identifies its member's token — no captured member's
socket receives anything from the tick. -/
theorem reminderTick_targets_exactly_uncaptured (lobby : Lobby) (m : PtpMediator)
    (hsock : ∀ a ∈ lobby.members, ∀ b ∈ lobby.members,
      a.networkClient.socket = b.networkClient.socket →
        a.networkClient.token = b.networkClient.token) :
    (∀ member ∈ lobby.members,
        (objKeys m.networkClientToPtpDetails).contains member.networkClient.token = false →
        requestConnectPacket m.udpPort member.networkClient ∈ PtpMediator.reminderTick lobby m)
    ∧ (∀ p ∈ PtpMediator.reminderTick lobby m,
        p.method = WsMethod.sendPtpPacket
        ∧ ∃ c ∈ PtpMediator.uncapturedClients lobby m, p = requestConnectPacket m.udpPort c)
    ∧ (∀ member ∈ lobby.members,
        (objKeys m.networkClientToPtpDetails).contains member.networkClient.token = true →
        ∀ p ∈ PtpMediator.reminderTick lobby m,
          member.networkClient.socket ∉ p.recipients) := by
  refine ⟨?_, ?_, ?_⟩
  · intro member hmem hun
    apply List.mem_map_of_mem (requestConnectPacket m.udpPort)
    rw [PtpMediator.uncapturedClients, List.mem_filter]
    exact ⟨List.mem_map_of_mem (·.networkClient) hmem, by rw [hun]; rfl⟩
  · intro p hp
    rw [PtpMediator.reminderTick, List.mem_map] at hp
    obtain ⟨c, hc, hcp⟩ := hp
    exact ⟨by rw [← hcp]; rfl, c, hc, hcp.symm⟩
  · intro member hmem hcap p hp hsockmem
    rw [PtpMediator.reminderTick, List.mem_map] at hp
    obtain ⟨c, hc, hcp⟩ := hp
    rw [PtpMediator.uncapturedClients, List.mem_filter] at hc
    obtain ⟨hcmem, hcun⟩ := hc
    rw [List.mem_map] at hcmem
    obtain ⟨member', hmem', hmc⟩ := hcmem
    rw [← hcp] at hsockmem
    simp only [requestConnectPacket, List.mem_singleton] at hsockmem
    have htok : member.networkClient.token = member'.networkClient.token :=
      hsock member hmem member' hmem' (by rw [hsockmem, hmc])
    rw [htok, hmc] at hcap
    rw [hcap] at hcun
    simp at hcun

/-- Witness for C7 on the half-captured two-member mediation. -/
theorem reminderTick_targets_exactly_uncaptured_witness :
    (∀ a ∈ twoMemberLobby.members, ∀ b ∈ twoMemberLobby.members,
        a.networkClient.socket = b.networkClient.socket →
          a.networkClient.token = b.networkClient.token) ∧
      ((∀ member ∈ twoMemberLobby.members,
          (objKeys halfCapturedMediator.networkClientToPtpDetails).contains
              member.networkClient.token = false →
          requestConnectPacket halfCapturedMediator.udpPort member.networkClient
            ∈ PtpMediator.reminderTick twoMemberLobby halfCapturedMediator)
        ∧ (∀ p ∈ PtpMediator.reminderTick twoMemberLobby halfCapturedMediator,
            p.method = WsMethod.sendPtpPacket
            ∧ ∃ c ∈ PtpMediator.uncapturedClients twoMemberLobby halfCapturedMediator,
                p = requestConnectPacket halfCapturedMediator.udpPort c)
        ∧ (∀ member ∈ twoMemberLobby.members,
            (objKeys halfCapturedMediator.networkClientToPtpDetails).contains
                member.networkClient.token = true →
            ∀ p ∈ PtpMediator.reminderTick twoMemberLobby halfCapturedMediator,
              member.networkClient.socket ∉ p.recipients)) :=
  ⟨by decide, reminderTick_targets_exactly_uncaptured twoMemberLobby halfCapturedMediator
    (by decide)⟩

/-- C4: a locked lobby (its mediation is active, so a mediator is live
for it) refuses a join request with the `LobbyLocked` error, and a
second start-mediation request for it is refused; neither attempt
changes any state (the join error returns no new registry, and the
refused start returns the registry unchanged with no frames). -/
theorem lockedLobby_refuses_join_and_second_start (st : LobbyRegistry) (nc : NetworkClient)
    (lobbyId peerName : Str) (lobby : Lobby)
    (hfound : objGet st.items lobbyId = some lobby)
    (hlocked : lobby.locked = true)
    (hmed : objHas st.lobbyIdToPtpMediator lobbyId = true)
    (hnin : isNetworkClientInLobby st nc = false) :
    joinLobby st nc lobbyId peerName = .error .lobbyLocked
    ∧ startPtpMediationForLobby st lobbyId = (st, []) := by
  constructor
  · rw [joinLobby]
    simp only [hnin, Bool.false_eq_true, if_false, hfound, hlocked, if_true]
  · rw [startPtpMediationForLobby]
    simp only [hfound, hmed, Bool.not_true, Bool.and_false, Bool.false_eq_true, if_false]

/-- Witness for C4: the registry fixture whose locked two-member lobby
is mediating, with the outside session `C` attempting to join. -/
theorem lockedLobby_refuses_join_and_second_start_witness :
    (objGet registryWithMediator.items lobbyIdW = some twoMemberLobby
      ∧ twoMemberLobby.locked = true
      ∧ objHas registryWithMediator.lobbyIdToPtpMediator lobbyIdW = true
      ∧ isNetworkClientInLobby registryWithMediator clientC = false) ∧
      (joinLobby registryWithMediator clientC lobbyIdW ['C'] = .error .lobbyLocked
        ∧ startPtpMediationForLobby registryWithMediator lobbyIdW = (registryWithMediator, [])) :=
  ⟨⟨by decide, by decide, by decide, by decide⟩,
    lockedLobby_refuses_join_and_second_start registryWithMediator clientC lobbyIdW ['C']
      twoMemberLobby (by decide) (by decide) (by decide) (by decide)⟩

theorem digit36_alphabet : ∀ v : Fin 36,
    ('0' ≤ digit36 v.val ∧ digit36 v.val ≤ '9') ∨ ('A' ≤ digit36 v.val ∧ digit36 v.val ≤ 'Z') := by
  decide

/-- C8: a successful lobby registration registers under an id of
exactly 5 characters drawn from `[A-Z0-9]` that no already-registered
lobby carries (collisions among the drawn candidates are skipped), and
records the token→lobby index entry for the lobby's host. -/
theorem registerLobby_fresh_id_and_host_entry (st : LobbyRegistry) (draws : Nat → Nat → Fin 36)
    (fuel : Nat) (lobby : Lobby) (st' : LobbyRegistry) (id : Str)
    (h : registerLobby st (fun n => generateBase36Id 5 (draws n)) fuel lobby = some (st', id)) :
    id.length = 5
    ∧ (∀ c ∈ id, ('0' ≤ c ∧ c ≤ '9') ∨ ('A' ≤ c ∧ c ≤ 'Z'))
    ∧ objHas st.items id = false
    ∧ objGet st'.items id = some lobby
    ∧ objGet st'.networkClientToLobbyMapping lobby.host.networkClient.token = some id := by
  rcases hf : (List.range fuel).find?
      (fun n => !(objHas st.items (generateBase36Id 5 (draws n)))) with _ | n
  · rw [registerLobby, hf] at h
    simp at h
  · rw [registerLobby, hf] at h
    simp only [Option.some.injEq, Prod.mk.injEq] at h
    obtain ⟨hst, hid⟩ := h
    have hfresh : objHas st.items (generateBase36Id 5 (draws n)) = false := by
      have := List.find?_some hf
      simpa using this
    subst hid
    subst hst
    refine ⟨?_, ?_, hfresh, ?_, ?_⟩
    · rw [generateBase36Id, List.length_map, List.length_range]
    · intro c hc
      rw [generateBase36Id, List.mem_map] at hc
      obtain ⟨i, -, hci⟩ := hc
      exact hci ▸ digit36_alphabet (draws n i)
    · exact objGet_objSet_self st.items (generateBase36Id 5 (draws n)) lobby
    · exact objGet_objSet_self _ lobby.host.networkClient.token (generateBase36Id 5 (draws n))

/-- Witness for C8: registering into the empty registry with all-zero
draws yields the id `00000`. -/
theorem registerLobby_fresh_id_and_host_entry_witness :
    (registerLobby emptyRegistry (fun _ => generateBase36Id 5 (fun _ => (0 : Fin 36))) 1
        singletonLobby = some (registeredFixture, ['0', '0', '0', '0', '0'])) ∧
      (List.length ['0', '0', '0', '0', '0'] = 5
        ∧ (∀ c ∈ ['0', '0', '0', '0', '0'], ('0' ≤ c ∧ c ≤ '9') ∨ ('A' ≤ c ∧ c ≤ 'Z'))
        ∧ objHas emptyRegistry.items ['0', '0', '0', '0', '0'] = false
        ∧ objGet registeredFixture.items ['0', '0', '0', '0', '0'] = some singletonLobby
        ∧ objGet registeredFixture.networkClientToLobbyMapping
            singletonLobby.host.networkClient.token = some ['0', '0', '0', '0', '0']) :=
  ⟨by decide,
    registerLobby_fresh_id_and_host_entry emptyRegistry (fun _ _ => (0 : Fin 36)) 1
      singletonLobby registeredFixture ['0', '0', '0', '0', '0'] (by decide)⟩

/-- C6: a successful join appends the member to the lobby, records the
token→lobby index entry, and emits exactly one `lobby_peerConnect`
frame — carrying the joiner's name and the lobby id — whose recipients
are the sockets of exactly the members present before the join (the
recipient list is computed from the already-committed membership via
`otherMembers`), and never the joiner's socket. -/
theorem addMemberToLobby_commits_then_notifies_others (st : LobbyRegistry) (lobbyId : Str)
    (c : LobbyClient) (lobby : Lobby)
    (hfound : objGet st.items lobbyId = some lobby)
    (hnm : lobby.isMember c = false)
    (hcap : lobby.numMembers < lobby.maxMembers)
    (hsock : ∀ mem ∈ lobby.members, mem.networkClient.socket ≠ c.networkClient.socket) :
    (addMemberToLobby st lobbyId c).2.2 = true
    ∧ objGet (addMemberToLobby st lobbyId c).1.items lobbyId
        = some { lobby with members := lobby.members ++ [c] }
    ∧ objGet (addMemberToLobby st lobbyId c).1.networkClientToLobbyMapping
        c.networkClient.token = some lobbyId
    ∧ (addMemberToLobby st lobbyId c).2.1
        = [⟨.peerConnected, .peerInfo c.name lobbyId, lobby.members.map (·.networkClient.socket)⟩]
    ∧ c.networkClient.socket
        ∉ ((addMemberToLobby st lobbyId c).2.1.flatMap Packet.recipients) := by
  have hfull : lobby.isFull = false := by
    rw [Lobby.isFull, decide_eq_false_iff_not]
    omega
  have hadd : lobby.addMember c = ({ lobby with members := lobby.members ++ [c] }, true) := by
    rw [Lobby.addMember, hnm, hfull]
    simp
  have hother : ({ lobby with members := lobby.members ++ [c] } : Lobby).otherMembers c
      = lobby.members := by
    rw [Lobby.otherMembers]
    show (lobby.members ++ [c]).filter _ = lobby.members
    rw [List.filter_append]
    have h1 : lobby.members.filter
        (fun member => !(member.networkClient.token == c.networkClient.token)) = lobby.members := by
      apply List.filter_eq_self.mpr
      intro mem hmem
      have hfalse : doLobbyClientsMatch mem c = false := by
        rw [Lobby.isMember] at hnm
        exact Bool.eq_false_iff.mpr (fun hh => by
          rw [List.any_eq_false] at hnm
          exact hnm mem hmem hh)
      rw [doLobbyClientsMatch] at hfalse
      rw [hfalse]
      rfl
    have h2 : ([c] : List LobbyClient).filter
        (fun member => !(member.networkClient.token == c.networkClient.token)) = [] := by
      simp
    rw [h1, h2, List.append_nil]
  have hguard : (!(lobby.isMember c) && decide (lobby.numMembers < lobby.maxMembers)) = true := by
    rw [hnm]
    simp [hcap]
  have hmain : addMemberToLobby st lobbyId c
      = (⟨objSet st.items lobbyId { lobby with members := lobby.members ++ [c] },
          objSet st.networkClientToLobbyMapping c.networkClient.token lobbyId,
          st.lobbyIdToPtpMediator, st.udpPort, st.serverConnectTimeoutMs,
          st.connectRequestIntervalMs, st.ptpConnectTimeoutMs, st.world⟩,
          [⟨.peerConnected, .peerInfo c.name lobbyId, lobby.members.map (·.networkClient.socket)⟩],
          true) := by
    rw [addMemberToLobby]
    simp only [hfound, hguard, if_true, hadd, hother]
  rw [hmain]
  refine ⟨rfl, objGet_objSet_self _ _ _, objGet_objSet_self _ _ _, rfl, ?_⟩
  intro hin
  simp only [List.flatMap_cons, List.flatMap_nil, List.append_nil, List.mem_map] at hin
  obtain ⟨mem, hmem, hs⟩ := hin
  exact hsock mem hmem hs

/-- Witness for C6: peer `B` joins the registered one-member lobby. -/
theorem addMemberToLobby_commits_then_notifies_others_witness :
    (objGet registeredFixture.items ['0', '0', '0', '0', '0'] = some singletonLobby
      ∧ singletonLobby.isMember memberB = false
      ∧ singletonLobby.numMembers < singletonLobby.maxMembers
      ∧ (∀ mem ∈ singletonLobby.members,
          mem.networkClient.socket ≠ memberB.networkClient.socket)) ∧
      ((addMemberToLobby registeredFixture ['0', '0', '0', '0', '0'] memberB).2.2 = true
        ∧ objGet (addMemberToLobby registeredFixture ['0', '0', '0', '0', '0'] memberB).1.items
            ['0', '0', '0', '0', '0']
            = some { singletonLobby with members := singletonLobby.members ++ [memberB] }
        ∧ objGet (addMemberToLobby registeredFixture
              ['0', '0', '0', '0', '0'] memberB).1.networkClientToLobbyMapping
            memberB.networkClient.token = some ['0', '0', '0', '0', '0']
        ∧ (addMemberToLobby registeredFixture ['0', '0', '0', '0', '0'] memberB).2.1
            = [⟨.peerConnected, .peerInfo memberB.name ['0', '0', '0', '0', '0'],
                singletonLobby.members.map (·.networkClient.socket)⟩]
        ∧ memberB.networkClient.socket
            ∉ ((addMemberToLobby registeredFixture
                ['0', '0', '0', '0', '0'] memberB).2.1.flatMap Packet.recipients)) :=
  ⟨⟨by decide, by decide, by decide, by decide⟩,
    addMemberToLobby_commits_then_notifies_others registeredFixture ['0', '0', '0', '0', '0']
      memberB singletonLobby (by decide) (by decide) (by decide) (by decide)⟩

/-- C10: soundness of the token→lobby index — assuming every current
entry points at a registered lobby, every registry operation that
touches the index preserves that: registration (which adds only the
host's entry for the fresh lobby), member addition (which adds an entry
only for an existing lobby), member removal, and lobby removal (whose
`#handleItemRemoved` filters out every entry pointing at the removed
lobby), so no operation leaves a stale entry behind. -/
theorem tokenIndex_entries_refer_to_registered_lobbies (st : LobbyRegistry)
    (hinv : registryInv st) :
    (∀ genId fuel lobby res, registerLobby st genId fuel lobby = some res → registryInv res.1)
    ∧ (∀ lobbyId c, registryInv (addMemberToLobby st lobbyId c).1)
    ∧ (∀ lobbyId c, registryInv (removeMemberFromLobby st lobbyId c).1)
    ∧ (∀ lobbyId, registryInv (removeById st lobbyId).1) := by
  refine ⟨?_, ?_, ?_, ?_⟩
  · intro genId fuel lobby res h
    rcases hf : (List.range fuel).find? (fun n => !(objHas st.items (genId n))) with _ | n
    · rw [registerLobby, hf] at h
      simp at h
    · rw [registerLobby, hf] at h
      simp only [Option.some.injEq] at h
      rw [← h]
      intro p hp
      rcases mem_objSet hp with hnew | hold
      · rw [hnew]
        show objHas (objSet st.items (genId n) lobby) (genId n) = true
        exact objHas_objSet_self st.items (genId n) lobby
      · exact objHas_objSet_of_objHas (genId n) lobby (hinv p hold)
  · intro lobbyId c
    rw [addMemberToLobby]
    rcases h : objGet st.items lobbyId with _ | lobby
    · exact hinv
    · have hhas : objHas st.items lobbyId = true := by
        rw [objHas, h]
        rfl
      by_cases hg : (!(lobby.isMember c) && decide (lobby.numMembers < lobby.maxMembers)) = true
      · simp only [hg, if_true]
        by_cases ha : (lobby.addMember c).2 = true
        · simp only [ha, if_true]
          intro p hp
          rcases mem_objSet hp with hnew | hold
          · rw [hnew]
            exact objHas_objSet_self st.items lobbyId (lobby.addMember c).1
          · exact objHas_objSet_of_objHas lobbyId (lobby.addMember c).1 (hinv p hold)
        · rw [Bool.not_eq_true] at ha
          simp only [ha, Bool.false_eq_true, if_false]
          intro p hp
          exact objHas_objSet_of_objHas lobbyId (lobby.addMember c).1 (hinv p hp)
      · rw [Bool.not_eq_true] at hg
        simp only [hg, Bool.false_eq_true, if_false]
        exact hinv
  · intro lobbyId c
    rw [removeMemberFromLobby]
    rcases h : objGet st.items lobbyId with _ | lobby
    · exact hinv
    · by_cases hm : lobby.isMember c = true
      · simp only [hm, if_true]
        by_cases hh : lobby.isHost c = true
        · simp only [hh, if_true]
          intro p hp
          have hclosed := registryInv_removeById hinv lobbyId
          exact hclosed p (mem_objDelete hp)
        · rw [Bool.not_eq_true] at hh
          simp only [hh, Bool.false_eq_true, if_false]
          intro p hp
          exact objHas_objSet_of_objHas lobbyId (lobby.removeMember c) (hinv p (mem_objDelete hp))
      · rw [Bool.not_eq_true] at hm
        simp only [hm, Bool.false_eq_true, if_false]
        exact hinv
  · exact fun lobbyId => registryInv_removeById hinv lobbyId

/-- Witness for C10 on the mediating registry fixture, whose index
holds an entry for each of the lobby's two members. -/
theorem tokenIndex_entries_refer_to_registered_lobbies_witness :
    registryInv registryWithMediator ∧
      ((∀ genId fuel lobby res,
          registerLobby registryWithMediator genId fuel lobby = some res → registryInv res.1)
        ∧ (∀ lobbyId c, registryInv (addMemberToLobby registryWithMediator lobbyId c).1)
        ∧ (∀ lobbyId c, registryInv (removeMemberFromLobby registryWithMediator lobbyId c).1)
        ∧ (∀ lobbyId, registryInv (removeById registryWithMediator lobbyId).1)) :=
  ⟨by unfold registryInv; decide,
    tokenIndex_entries_refer_to_registered_lobbies registryWithMediator
      (by unfold registryInv; decide)⟩

end Orion
